import Mathlib

/-!
Verification of `generador_personalizado_contrasenas.py` (and the reduced
variant `code.py`, whose `generar_contrasena` is identical): a command-line
password / passphrase generator with entropy scoring and a k-anonymity
breach lookup.

Modelling conventions (shallow embedding):
* Python's `secrets.choice(pool)` draws one element of a non-empty sequence.
  Randomness is modelled by an explicit stream `r : Nat → Nat`; the i-th draw
  picks index `r i % pool.length`.  Every property proved here holds for every
  stream, hence for every sequence of random draws.
* Python `int` is modelled as `Int`; `range(n)` for `n ≤ 0` is empty, which is
  captured by `Int.toNat`.
* A function that can raise an exception returns `Except String α`.
* `str.strip()` is modelled by `String.trim`, `str.upper()` by mapping
  `Char.toUpper`, `'sep'.join(...)` by `String.intercalate`,
  `s.split(':')` / `splitlines()` by `String.splitOn` (the scripts only deal
  in ASCII and newline-separated protocol text, where these agree).
* `hashlib.sha1(...).hexdigest()` is an external library call; it is modelled
  as an abstract digest function `sha1 : String → String` passed explicitly,
  and HTTP transport as `http_get : String → Option HttpResponse`
  (`none` = raised transport exception, caught by the script).
-/

namespace PasswordGen

/-! ### Fixed alphabets (`string.ascii_lowercase` etc. and the symbol set) -/

def ascii_lowercase : String := "abcdefghijklmnopqrstuvwxyz"

def ascii_uppercase : String := "ABCDEFGHIJKLMNOPQRSTUVWXYZ"

def ascii_digits : String := "0123456789"

/-- The fixed symbol alphabet of the script (braces written with escapes). -/
def simbolos_alphabet : String := "!@#$%&*()-_=+[]\x7b\x7d;:,.<>?/"

/-- One draw of `secrets.choice(pool)` over a list of characters, steered by
the random value `k`; for a non-empty pool the index `k % pool.length` is in
bounds, so the default is never used. -/
def secretsChoice (pool : List Char) (k : Nat) : Char :=
  pool.getD (k % pool.length) 'a'

/-- The pool assembled by `generar_contrasena` from the enabled categories
(lines 34-42 of the script): successive `+=` of the fixed alphabets. -/
def build_pool (minus mayus digitos simbolos : Bool) : String :=
  (if minus then ascii_lowercase else "")
    ++ (if mayus then ascii_uppercase else "")
    ++ (if digitos then ascii_digits else "")
    ++ (if simbolos then simbolos_alphabet else "")

/-- The error message of the `ValueError` raised on an empty pool. -/
def emptyPoolMsg : String := "Debes habilitar al menos un tipo de carácter."

/-- `generar_contrasena(longitud, minus, mayus, digitos, simbolos)`:
builds the pool, raises `ValueError` when it is empty, otherwise joins
`longitud` draws of `secrets.choice(pool)` (for `longitud ≤ 0`,
`range(longitud)` is empty and the join is `''`). -/
def generar_contrasena (r : Nat → Nat) (longitud : Int)
    (minus mayus digitos simbolos : Bool) : Except String String :=
  let pool := build_pool minus mayus digitos simbolos
  if pool = "" then .error emptyPoolMsg
  else .ok (String.mk ((List.range longitud.toNat).map
    (fun i => secretsChoice pool.data (r i))))

/-- The union of the fixed alphabets of the enabled categories, as a list of
characters (the reference set of §8's first testable property). -/
def categoryUnion (minus mayus digitos simbolos : Bool) : List Char :=
  (if minus then ascii_lowercase.data else [])
    ++ (if mayus then ascii_uppercase.data else [])
    ++ (if digitos then ascii_digits.data else [])
    ++ (if simbolos then simbolos_alphabet.data else [])

/-- `main` iterates `for _ in range(max(1, args.count))` (line 244). -/
def main_iterations (count : Int) : Nat := (max 1 count).toNat

/-! ### Basic lemmas about the pool -/

lemma build_pool_data (minus mayus digitos simbolos : Bool) :
    (build_pool minus mayus digitos simbolos).data =
      categoryUnion minus mayus digitos simbolos := by
  unfold build_pool categoryUnion
  cases minus <;> cases mayus <;> cases digitos <;> cases simbolos <;>
    simp [String.data_append, ascii_lowercase, ascii_uppercase,
      ascii_digits, simbolos_alphabet]

lemma build_pool_empty_iff (minus mayus digitos simbolos : Bool) :
    build_pool minus mayus digitos simbolos = "" ↔
      minus = false ∧ mayus = false ∧ digitos = false ∧ simbolos = false := by
  cases minus <;> cases mayus <;> cases digitos <;> cases simbolos <;>
    simp_all [build_pool, ascii_lowercase, ascii_uppercase, ascii_digits,
      simbolos_alphabet]

lemma secretsChoice_mem (pool : List Char) (k : Nat) (h : pool ≠ []) :
    secretsChoice pool k ∈ pool := by
  have hlen : 0 < pool.length := List.length_pos.mpr h
  have hlt : k % pool.length < pool.length := Nat.mod_lt _ hlen
  unfold secretsChoice
  rw [List.getD_eq_getElem pool 'a' hlt]
  exact List.getElem_mem hlt

/-! ### Claims C1-C4 -/

/-- C1: `generar_contrasena` fails with the `ValueError` (InvalidInput)
exactly when all four character categories are disabled; with at least one
category enabled it never fails for that reason. -/
theorem C1_empty_pool_error (r : Nat → Nat) (longitud : Int)
    (minus mayus digitos simbolos : Bool) :
    generar_contrasena r longitud minus mayus digitos simbolos =
        Except.error emptyPoolMsg ↔
      minus = false ∧ mayus = false ∧ digitos = false ∧ simbolos = false := by
  rw [← build_pool_empty_iff minus mayus digitos simbolos]
  by_cases h : build_pool minus mayus digitos simbolos = ""
  · simp [generar_contrasena, h]
  · simp [generar_contrasena, h]

/-- C2 counterexample: with the default categories and requested length 0
(a non-positive length), `generar_contrasena` succeeds and returns the empty
string instead of failing with InvalidInput; likewise a non-positive batch
count is clamped by `main` to one iteration instead of failing. -/
theorem C2_counterexample :
    generar_contrasena (fun _ => 0) 0 true true true false = Except.ok "" ∧
      main_iterations (-3) = 1 := by
  constructor
  · rfl
  · rfl

/-- C2 amended: for every requested length `longitud ≤ 0` with at least one
category enabled, `generar_contrasena` does not fail: it returns the empty
string; and for every non-positive batch count, `main` clamps the iteration
count to `max(1, count)` and performs exactly one iteration instead of
failing. -/
theorem C2_nonpositive_length_ok (r : Nat → Nat) (longitud : Int)
    (minus mayus digitos simbolos : Bool) (count : Int)
    (hn : longitud ≤ 0)
    (hcat : minus = true ∨ mayus = true ∨ digitos = true ∨ simbolos = true)
    (hc : count ≤ 0) :
    generar_contrasena r longitud minus mayus digitos simbolos =
        Except.ok "" ∧ main_iterations count = 1 := by
  constructor
  · have hpool : build_pool minus mayus digitos simbolos ≠ "" := by
      intro h
      have := (build_pool_empty_iff minus mayus digitos simbolos).mp h
      rcases hcat with h1 | h1 | h1 | h1 <;> simp_all
    have hzero : longitud.toNat = 0 := Int.toNat_of_nonpos hn
    unfold generar_contrasena
    simp [hpool, hzero]
  · unfold main_iterations
    have : max 1 count = 1 := by omega
    rw [this]
    rfl

/-- C2 amended, witness at length 0, count 0. -/
theorem C2_nonpositive_length_ok_witness :
    generar_contrasena (fun _ => 0) 0 true true true false =
        Except.ok "" ∧ main_iterations 0 = 1 :=
  C2_nonpositive_length_ok (fun _ => 0) 0 true true true false 0
    (by decide) (Or.inl rfl) (by decide)

/-- C3: whenever `generar_contrasena` returns a string, every character of
that string belongs to the union of the fixed alphabets of the enabled
categories. -/
theorem C3_chars_in_union (r : Nat → Nat) (longitud : Int)
    (minus mayus digitos simbolos : Bool) (s : String)
    (hok : generar_contrasena r longitud minus mayus digitos simbolos =
      Except.ok s) :
    ∀ ch ∈ s.data, ch ∈ categoryUnion minus mayus digitos simbolos := by
  unfold generar_contrasena at hok
  by_cases h : build_pool minus mayus digitos simbolos = ""
  · simp [h] at hok
  · simp [h] at hok
    intro ch hch
    rw [← hok] at hch
    simp only [String.mk, List.mem_map] at hch
    obtain ⟨i, _, hchoice⟩ := hch
    have hpd : (build_pool minus mayus digitos simbolos).data ≠ [] := by
      intro hd
      exact h (by cases hpool : build_pool minus mayus digitos simbolos with
        | mk l => simp_all [String.ext_iff])
    have := secretsChoice_mem (build_pool minus mayus digitos simbolos).data
      (r i) hpd
    rw [hchoice] at this
    rwa [build_pool_data] at this

/-- C3 witness: a concrete successful generation whose characters all lie in
the enabled union. -/
theorem C3_chars_in_union_witness :
    'a' ∈ categoryUnion true false false false :=
  C3_chars_in_union (fun _ => 0) 1 true false false false "a" (by rfl) 'a'
    (by decide)

/-- C4 counterexample: at requested length `-1` the call returns a string
(the empty string) whose length `0` differs from the requested length, so
the claim fails without a restriction on `longitud`. -/
theorem C4_counterexample :
    generar_contrasena (fun _ => 0) (-1) true true true false =
        Except.ok "" ∧ ¬ ((("" : String).length : Int) = -1) := by
  constructor
  · rfl
  · decide

/-- C4 amended: whenever `generar_contrasena` returns a string, its length is
`longitud.toNat = max 0 longitud`; in particular it equals the requested
length exactly whenever `longitud ≥ 0`, while a negative request yields the
empty string. -/
theorem C4_length_eq (r : Nat → Nat) (longitud : Int)
    (minus mayus digitos simbolos : Bool) (s : String)
    (hok : generar_contrasena r longitud minus mayus digitos simbolos =
      Except.ok s) :
    s.length = longitud.toNat := by
  unfold generar_contrasena at hok
  by_cases h : build_pool minus mayus digitos simbolos = ""
  · simp [h] at hok
  · simp [h] at hok
    rw [← hok]
    simp [String.length, String.mk]

/-- C4 amended, witness: a concrete call of length 5. -/
theorem C4_length_eq_witness :
    ("aaaaa" : String).length = (5 : Int).toNat :=
  C4_length_eq (fun _ => 0) 5 true false false false "aaaaa" (by rfl)

/-! ### Passphrase generation (lines 51-72) -/

/-- The embedded fallback wordlist of the script. -/
def DEFAULT_EMBEDDED_WORDLIST : List String :=
  ["sol", "luna", "estrella", "gato", "perro", "viento", "mar", "roca",
   "fuego", "río", "árbol", "montaña", "nube", "lluvia", "campo", "ciudad",
   "puerta", "libro", "camino", "puente", "reloj", "puñado", "llave", "cielo"]

/-- Python `str.strip()`: drop leading and trailing whitespace. -/
def pyStrip (s : String) : String :=
  String.mk (((s.data.dropWhile Char.isWhitespace).reverse.dropWhile
    Char.isWhitespace).reverse)

/-- `[w.strip() for w in f if w.strip()]` over the lines of the wordlist
file: strip each line and keep the non-blank results. -/
def strip_lines (ls : List String) : List String :=
  (ls.map pyStrip).filter (fun w => w ≠ "")

/-- The `words` list right after the `if wordlist_path:` block.  The file
argument models `wordlist_path`: `none` means no path was given; a read that
raises is `some (Except.error e)` and is re-raised as `RuntimeError`
(line 69); a successful read yields the file's lines. -/
def loaded_words :
    Option (Except String (List String)) → Except String (List String)
  | none => Except.ok []
  | some (Except.error e) => Except.error ("Error leyendo wordlist: " ++ e)
  | some (Except.ok ls) => Except.ok (strip_lines ls)

/-- One draw of `secrets.choice(words)` over a word list. -/
def wordChoice (ws : List String) (k : Nat) : String :=
  ws.getD (k % ws.length) ""

/-- The `palabras` draws of `secrets.choice(words)` (line 72). -/
def passphrase_tokens (r : Nat → Nat) (palabras : Int) (ws : List String) :
    List String :=
  (List.range palabras.toNat).map (fun i => wordChoice ws (r i))

/-- The wordlist actually sampled: the file's non-blank stripped lines if
there are any, else the embedded default (`if not words:` fallback, line 70,
which also covers the no-path case). -/
def effective_wordlist (wf : Option (Except String (List String))) :
    List String :=
  match loaded_words wf with
  | Except.error _ => []
  | Except.ok ws0 => if ws0 = [] then DEFAULT_EMBEDDED_WORDLIST else ws0

/-- `generar_passphrase(palabras, wordlist_path)`: load the wordlist (or
re-raise the read failure), fall back to the embedded list when empty, and
join `palabras` draws with single spaces. -/
def generar_passphrase (r : Nat → Nat) (palabras : Int)
    (wf : Option (Except String (List String))) : Except String String :=
  match loaded_words wf with
  | Except.error e => Except.error e
  | Except.ok ws0 =>
      Except.ok (String.intercalate " " (passphrase_tokens r palabras
        (if ws0 = [] then DEFAULT_EMBEDDED_WORDLIST else ws0)))

lemma wordChoice_mem {ws : List String} (k : Nat) (h : ws ≠ []) :
    wordChoice ws k ∈ ws := by
  have hlen : 0 < ws.length := List.length_pos.mpr h
  have hlt : k % ws.length < ws.length := Nat.mod_lt _ hlen
  unfold wordChoice
  rw [List.getD_eq_getElem ws "" hlt]
  exact List.getElem_mem hlt

lemma passphrase_tokens_mem (r : Nat → Nat) (palabras : Int)
    {ws : List String} (h : ws ≠ []) :
    ∀ t ∈ passphrase_tokens r palabras ws, t ∈ ws := by
  intro t ht
  simp only [passphrase_tokens, List.mem_map] at ht
  obtain ⟨i, _, hchoice⟩ := ht
  rw [← hchoice]
  exact wordChoice_mem (r i) h

/-! ### Claims C5, C10 -/

/-- C5: whenever `generar_passphrase` returns a string (for a non-negative
word count, per the PassphraseRequest invariant), the result is exactly
`palabras` tokens joined by single spaces, each token an element of the
wordlist the call is configured with (the file's non-blank words when
present, else the embedded default). -/
theorem C5_passphrase_structure (r : Nat → Nat) (palabras : Int)
    (wf : Option (Except String (List String))) (out : String)
    (hpal : 0 ≤ palabras)
    (hok : generar_passphrase r palabras wf = Except.ok out) :
    ∃ tokens : List String,
      out = String.intercalate " " tokens ∧
      (tokens.length : Int) = palabras ∧
      ∀ t ∈ tokens, t ∈ effective_wordlist wf := by
  unfold generar_passphrase at hok
  cases hw : loaded_words wf with
  | error e => rw [hw] at hok; exact absurd hok (by simp)
  | ok ws0 =>
      rw [hw] at hok
      simp only [Except.ok.injEq] at hok
      refine ⟨passphrase_tokens r palabras
        (if ws0 = [] then DEFAULT_EMBEDDED_WORDLIST else ws0), hok.symm, ?_, ?_⟩
      · simp [passphrase_tokens, Int.toNat_of_nonneg hpal]
      · have hne : (if ws0 = [] then DEFAULT_EMBEDDED_WORDLIST else ws0) ≠ [] := by
          by_cases h0 : ws0 = [] <;> simp [h0, DEFAULT_EMBEDDED_WORDLIST]
        have := passphrase_tokens_mem r palabras hne
        unfold effective_wordlist
        rw [hw]
        exact this

/-- C5 witness: one word drawn from the embedded list when no path is
configured. -/
theorem C5_passphrase_structure_witness :
    ∃ tokens : List String,
      "sol" = String.intercalate " " tokens ∧
      (tokens.length : Int) = 1 ∧
      ∀ t ∈ tokens, t ∈ effective_wordlist none :=
  C5_passphrase_structure (fun _ => 0) 1 none "sol" (by decide) (by rfl)

/-- C10: when the wordlist file is read successfully but every line is blank
after stripping, `generar_passphrase` does not fail: it falls back to the
embedded default wordlist, so every token of the resulting passphrase is an
element of `DEFAULT_EMBEDDED_WORDLIST`. -/
theorem C10_blank_wordlist_fallback (r : Nat → Nat) (palabras : Int)
    (ls : List String) (hblank : ∀ l ∈ ls, pyStrip l = "") :
    ∃ tokens : List String,
      generar_passphrase r palabras (some (Except.ok ls)) =
        Except.ok (String.intercalate " " tokens) ∧
      ∀ t ∈ tokens, t ∈ DEFAULT_EMBEDDED_WORDLIST := by
  have hstrip : strip_lines ls = [] := by
    unfold strip_lines
    rw [List.filter_eq_nil_iff]
    intro w hw
    simp only [List.mem_map] at hw
    obtain ⟨l, hl, hwl⟩ := hw
    simp [← hwl, hblank l hl]
  refine ⟨passphrase_tokens r palabras DEFAULT_EMBEDDED_WORDLIST, ?_, ?_⟩
  · simp [generar_passphrase, loaded_words, hstrip]
  · exact passphrase_tokens_mem r palabras (by simp [DEFAULT_EMBEDDED_WORDLIST])

/-- C10 witness: a file of two blank lines falls back to the embedded list. -/
theorem C10_blank_wordlist_fallback_witness :
    ∃ tokens : List String,
      generar_passphrase (fun _ => 0) 1 (some (Except.ok ["", "   "])) =
        Except.ok (String.intercalate " " tokens) ∧
      ∀ t ∈ tokens, t ∈ DEFAULT_EMBEDDED_WORDLIST :=
  C10_blank_wordlist_fallback (fun _ => 0) 1 ["", "   "] (by decide)

/-! ### Shannon entropy (lines 78-91) and strength label (lines 93-110)

Python floats are modelled by real numbers for the entropy computation and
by rationals for the threshold comparisons of `strength_label` (the
thresholds are small integers, where float and exact comparison agree). -/

/-- `shannon_entropy(s)`: `0.0` for the empty string; otherwise build the
character-frequency table, accumulate `entropy -= p * log2(p)` over the
frequency values, and return `entropy * len(s)`.  The frequency table is
modelled as the list of counts of the distinct characters of `s`. -/
noncomputable def shannon_entropy (s : String) : ℝ :=
  if s = "" then 0
  else
    let l := s.data
    let n : ℝ := (l.length : ℝ)
    let counts : List Nat := l.dedup.map (fun c => l.count c)
    (counts.foldl (fun acc (count : Nat) =>
      acc - ((count : ℝ) / n) * Real.logb 2 ((count : ℝ) / n)) 0) * n

/-- Modelled from the spec's formula: total bits `H × len(s)` with
`H = −Σ p(c)·log2(p(c))` over the observed character-frequency
distribution. -/
noncomputable def spec_entropy (s : String) : ℝ :=
  let l := s.data
  let n : ℝ := (l.length : ℝ)
  (-((l.dedup.map (fun c =>
      ((l.count c : ℝ) / n) * Real.logb 2 ((l.count c : ℝ) / n))).sum)) * n

lemma foldl_sub_eq {α : Type} (f : α → ℝ) (l : List α) (a : ℝ) :
    l.foldl (fun acc x => acc - f x) a = a - (l.map f).sum := by
  induction l generalizing a with
  | nil => simp
  | cons x xs ih => simp [ih, sub_sub]

lemma sum_map_neg {α : Type} (f : α → ℝ) (l : List α) :
    (l.map (fun x => -(f x))).sum = -((l.map f).sum) := by
  induction l with
  | nil => simp
  | cons x xs ih => simp [ih]; ring

lemma spec_entropy_nonneg (s : String) : 0 ≤ spec_entropy s := by
  unfold spec_entropy
  rcases eq_or_ne s.data [] with hd | hd
  · simp [hd]
  · have hn : (0 : ℝ) < (s.data.length : ℝ) := by
      exact_mod_cast List.length_pos.mpr hd
    refine mul_nonneg ?_ hn.le
    rw [← sum_map_neg]
    refine List.sum_nonneg ?_
    intro x hx
    simp only [List.mem_map] at hx
    obtain ⟨c, hc, hxc⟩ := hx
    have hmem : c ∈ s.data := List.mem_dedup.mp hc
    have hcpos : 0 < s.data.count c := List.count_pos_iff.mpr hmem
    have hcle : s.data.count c ≤ s.data.length := List.count_le_length c s.data
    set p : ℝ := ((s.data.count c : ℝ) / (s.data.length : ℝ)) with hp
    have hppos : 0 < p := div_pos (by exact_mod_cast hcpos) hn
    have hple : p ≤ 1 := by
      rw [hp, div_le_one hn]
      exact_mod_cast hcle
    have hlog : Real.logb 2 p ≤ 0 :=
      Real.logb_nonpos (by norm_num) hppos.le hple
    have hterm : p * Real.logb 2 p ≤ 0 :=
      mul_nonpos_iff.mpr (Or.inl ⟨hppos.le, hlog⟩)
    rw [← hxc]
    simpa using hterm

lemma shannon_entropy_eq_spec (s : String) :
    shannon_entropy s = spec_entropy s := by
  unfold shannon_entropy spec_entropy
  by_cases h : s = ""
  · subst h
    norm_num [String.data]
  · simp only [h, if_false]
    rw [foldl_sub_eq, List.map_map]
    simp [Function.comp_def]

/-! ### Claims C6, C7 -/

/-- C6: `shannon_entropy` is a total function equal, on every finite string,
to the spec's `H × len(s)` with `H = −Σ p(c)·log2(p(c))` over the observed
character-frequency distribution; it returns 0 on the empty string and a
non-negative value on every string. -/
theorem C6_shannon_entropy_contract :
    shannon_entropy "" = 0 ∧
      ∀ s : String, shannon_entropy s = spec_entropy s ∧
        0 ≤ shannon_entropy s := by
  refine ⟨by simp [shannon_entropy], fun s => ⟨shannon_entropy_eq_spec s, ?_⟩⟩
  rw [shannon_entropy_eq_spec]
  exact spec_entropy_nonneg s

/-- `strength_label(entropy_bits)`: the cascade of threshold comparisons of
the script, over exact rationals. -/
def strength_label (entropy_bits : ℚ) : String :=
  if entropy_bits < 28 then "Muy débil"
  else if entropy_bits < 36 then "Débil"
  else if entropy_bits < 60 then "Aceptable"
  else if entropy_bits < 80 then "Fuerte"
  else "Muy fuerte"

/-- Modelled from the spec's words: the five-level bracket map
`<28 → very weak, [28,36) → weak, [36,60) → acceptable, [60,80) → strong,
≥80 → very strong`. -/
def spec_strength_label (bits : ℚ) : String :=
  if bits < 28 then "Muy débil"
  else if 28 ≤ bits ∧ bits < 36 then "Débil"
  else if 36 ≤ bits ∧ bits < 60 then "Aceptable"
  else if 60 ≤ bits ∧ bits < 80 then "Fuerte"
  else "Muy fuerte"

/-- C7: `strength_label` is a pure total function of the entropy-bits value
agreeing everywhere with the spec's five fixed brackets; its value is always
one of the five labels, and the boundary inputs 28, 36, 60 and 80 map to the
higher bracket. -/
theorem C7_strength_label_brackets :
    (∀ b : ℚ, strength_label b = spec_strength_label b) ∧
      (∀ b : ℚ, strength_label b ∈
        ["Muy débil", "Débil", "Aceptable", "Fuerte", "Muy fuerte"]) ∧
      strength_label 28 = "Débil" ∧ strength_label 36 = "Aceptable" ∧
      strength_label 60 = "Fuerte" ∧ strength_label 80 = "Muy fuerte" := by
  refine ⟨fun b => ?_, fun b => ?_, by decide, by decide, by decide, by decide⟩
  · rcases lt_or_le b 28 with h1 | h1
    · simp [strength_label, spec_strength_label, h1]
    · rcases lt_or_le b 36 with h2 | h2
      · simp [strength_label, spec_strength_label, not_lt.mpr h1, h1, h2]
      · rcases lt_or_le b 60 with h3 | h3
        · simp [strength_label, spec_strength_label, not_lt.mpr h1,
            not_lt.mpr h2, h2, h3]
        · rcases lt_or_le b 80 with h4 | h4
          · simp [strength_label, spec_strength_label, not_lt.mpr h1,
              not_lt.mpr h2, not_lt.mpr h3, h3, h4]
          · simp [strength_label, spec_strength_label, not_lt.mpr h1,
              not_lt.mpr h2, not_lt.mpr h3, not_lt.mpr h4, h4]
  · unfold strength_label
    split_ifs <;> simp

/-! ### Pwned Passwords k-anonymity lookup (lines 116-145)

`hashlib.sha1(...).hexdigest()` is abstracted as a digest function
`sha1 : String → String`; `requests.get` as
`http_get : String → Option HttpResponse` with `none` for a raised
transport exception (the `except Exception: return None` at line 129). -/

/-- Python `str.upper()`. -/
def pyUpper (s : String) : String := String.mk (s.data.map Char.toUpper)

/-- The query URL (line 126): the fixed range endpoint followed by
`sha1[:5]`, the first five characters of the upper-cased hex digest. -/
def pwned_url (sha1 : String → String) (password : String) : String :=
  "https://api.pwnedpasswords.com/range/"
    ++ String.mk ((pyUpper (sha1 password)).data.take 5)

/-- The digest remainder compared against response lines: `sha1[5:]`. -/
def sha1_suffix (sha1 : String → String) (password : String) : String :=
  String.mk ((pyUpper (sha1 password)).data.drop 5)

/-- The part of an HTTP response the script reads. -/
structure HttpResponse where
  status_code : Int
  text : String

/-- Split a character list at every occurrence of `sep` (the accumulator
holds the current field reversed). -/
def splitOnCharAux (sep : Char) : List Char → List Char → List (List Char)
  | [], acc => [acc.reverse]
  | c :: cs, acc =>
      if c = sep then acc.reverse :: splitOnCharAux sep cs []
      else splitOnCharAux sep cs (c :: acc)

/-- Python `s.split(sep)` for a one-character separator; also used for
`splitlines()` with `'\n'` (splitlines drops a trailing empty field, but
the loop skips blank lines anyway, so the scan result is the same). -/
def pySplit (sep : Char) (s : String) : List String :=
  (splitOnCharAux sep s.data []).map String.mk

/-- Decimal digit-string parsing (the digits part of Python `int(str)`). -/
def parseNatDigits (cs : List Char) : Option Nat :=
  if cs ≠ [] ∧ cs.all Char.isDigit then
    some (cs.foldl (fun acc c => acc * 10 + (c.toNat - 48)) 0)
  else none

/-- Python `int(str)` on the inputs reachable here: optional surrounding
whitespace, an optional sign, then decimal digits; anything else raises
`ValueError`, modelled as `none`. -/
def pyIntParse (s : String) : Option Int :=
  match (pyStrip s).data with
  | '-' :: rest => (parseNatDigits rest).map (fun n => -(n : Int))
  | '+' :: rest => (parseNatDigits rest).map (fun n => (n : Int))
  | cs => (parseNatDigits cs).map (fun n => (n : Int))

/-- The `for line in resp.text.splitlines()` loop (lines 133-145): skip
blank lines; skip lines that do not split into exactly `suf:count`
(`except ValueError: continue`); on the first line whose suffix matches,
return `int(count)` (or `None` when that parse raises); return 0 after the
loop. -/
def scan_lines (sfx : String) : List String → Option Int
  | [] => some 0
  | line :: rest =>
      if line = "" then scan_lines sfx rest
      else
        match pySplit ':' line with
        | [suf, count] =>
            if suf = sfx then
              match pyIntParse count with
              | some n => some n
              | none => none
            else scan_lines sfx rest
        | _ => scan_lines sfx rest

/-- `pwned_count(password)`: `None` without the `requests` capability;
otherwise GET the range URL (`None` on a transport exception or a non-200
status) and scan the response lines for the digest suffix. -/
def pwned_count (requests_available : Bool) (sha1 : String → String)
    (http_get : String → Option HttpResponse) (password : String) :
    Option Int :=
  if requests_available = false then none
  else
    match http_get (pwned_url sha1 password) with
    | none => none
    | some resp =>
        if resp.status_code ≠ 200 then none
        else scan_lines (sha1_suffix sha1 password) (pySplit '\n' resp.text)

/-- Whether a response line is a well-formed pair whose suffix equals the
digest remainder. -/
def line_matches (sfx : String) (line : String) : Bool :=
  match pySplit ':' line with
  | [suf, _] => suf == sfx
  | _ => false

/-- Whether a response line's count field, when it parses at all, is
non-negative. -/
def line_count_nonneg (line : String) : Bool :=
  match pySplit ':' line with
  | [_, count] =>
      match pyIntParse count with
      | some n => decide (0 ≤ n)
      | none => true
  | _ => true

lemma scan_lines_no_match (sfx : String) (lines : List String)
    (h : ∀ line ∈ lines, line_matches sfx line = false) :
    scan_lines sfx lines = some 0 := by
  induction lines with
  | nil => rfl
  | cons line rest ih =>
      have hrest : ∀ l ∈ rest, line_matches sfx l = false :=
        fun l hl => h l (List.mem_cons_of_mem line hl)
      have hline := h line (List.mem_cons_self line rest)
      by_cases hempty : line = ""
      · simp [scan_lines, hempty, ih hrest]
      · rcases hsplit : pySplit ':' line with _ | ⟨suf, _ | ⟨count, _ | _⟩⟩
        · simp [scan_lines, hempty, hsplit, ih hrest]
        · simp [scan_lines, hempty, hsplit, ih hrest]
        · simp only [line_matches, hsplit] at hline
          have hne : suf ≠ sfx := beq_eq_false_iff_ne.mp hline
          simp [scan_lines, hempty, hsplit, hne, ih hrest]
        · simp [scan_lines, hempty, hsplit, ih hrest]

lemma scan_lines_nonneg (sfx : String) (lines : List String) (n : Int)
    (hwf : ∀ line ∈ lines, line_count_nonneg line = true)
    (hscan : scan_lines sfx lines = some n) : 0 ≤ n := by
  induction lines with
  | nil =>
      simp only [scan_lines, Option.some.injEq] at hscan
      omega
  | cons line rest ih =>
      have hrest : ∀ l ∈ rest, line_count_nonneg l = true :=
        fun l hl => hwf l (List.mem_cons_of_mem line hl)
      have hline := hwf line (List.mem_cons_self line rest)
      by_cases hempty : line = ""
      · exact ih hrest (by simpa [scan_lines, hempty] using hscan)
      · rcases hsplit : pySplit ':' line with _ | ⟨suf, _ | ⟨count, _ | _⟩⟩
        · exact ih hrest (by simpa [scan_lines, hempty, hsplit] using hscan)
        · exact ih hrest (by simpa [scan_lines, hempty, hsplit] using hscan)
        · by_cases hsfx : suf = sfx
          · simp only [line_count_nonneg, hsplit] at hline
            rcases hparse : pyIntParse count with _ | m <;>
              simp only [scan_lines, hempty, if_false, hsplit, hsfx, if_true,
                hparse, Option.some.injEq, reduceCtorEq] at hscan
            · subst hscan
              simpa [hparse] using hline
          · exact ih hrest (by simpa [scan_lines, hempty, hsplit, hsfx] using hscan)
        · exact ih hrest (by simpa [scan_lines, hempty, hsplit] using hscan)

/-! ### Claims C8, C9 -/

/-- C8 counterexample: with the HTTP capability present, a 200 response
whose matching line carries the count field `-1` makes `pwned_count` return
the negative integer `-1`, so the result is not always a non-negative count
or the unavailable sentinel. -/
theorem C8_counterexample :
    pwned_count true (fun _ => "00000ff")
        (fun _ => some ⟨200, "FF:-1"⟩) "pw" = some (-1) ∧
      (-1 : Int) < 0 := by
  constructor
  · rfl
  · decide

/-- C8 amended: `pwned_count` is a total function into `Option Int` (it
never raises past the boundary): it returns `none` when the HTTP capability
is absent, when the transport raises, or when the status is not 200; it
returns `some 0` when no response line's suffix matches the digest
remainder; and the returned integer is non-negative whenever every count
field of the response that parses is non-negative (the code does not itself
validate the sign of the transmitted count). -/
theorem C8_pwned_count_boundary (sha1 : String → String)
    (http_get : String → Option HttpResponse) (password : String) :
    pwned_count false sha1 http_get password = none ∧
      (http_get (pwned_url sha1 password) = none →
        pwned_count true sha1 http_get password = none) ∧
      (∀ resp, http_get (pwned_url sha1 password) = some resp →
        resp.status_code ≠ 200 →
        pwned_count true sha1 http_get password = none) ∧
      (∀ resp, http_get (pwned_url sha1 password) = some resp →
        resp.status_code = 200 →
        (∀ line ∈ pySplit '\n' resp.text,
          line_matches (sha1_suffix sha1 password) line = false) →
        pwned_count true sha1 http_get password = some 0) ∧
      (∀ resp, http_get (pwned_url sha1 password) = some resp →
        (∀ line ∈ pySplit '\n' resp.text, line_count_nonneg line = true) →
        ∀ n, pwned_count true sha1 http_get password = some n → 0 ≤ n) := by
  refine ⟨rfl, ?_, ?_, ?_, ?_⟩
  · intro h
    simp [pwned_count, h]
  · intro resp hresp hstatus
    simp [pwned_count, hresp, hstatus]
  · intro resp hresp hstatus hnomatch
    simp [pwned_count, hresp, hstatus,
      scan_lines_no_match (sha1_suffix sha1 password) _ hnomatch]
  · intro resp hresp hwf n hn
    simp only [pwned_count, Bool.true_eq_false, if_false, hresp] at hn
    by_cases hstatus : resp.status_code = 200
    · simp only [hstatus, ne_eq, not_true_eq_false, if_false] at hn
      exact scan_lines_nonneg _ _ n hwf hn
    · simp [hstatus] at hn

/-- C8 amended, witness: a 200 response with one well-formed non-matching
line yields the match count 0. -/
theorem C8_pwned_count_boundary_witness :
    pwned_count true (fun _ => "00000ff")
        (fun _ => some ⟨200, "AB:7"⟩) "pw" = some 0 :=
  ((C8_pwned_count_boundary (fun _ => "00000ff")
      (fun _ => some ⟨200, "AB:7"⟩) "pw").2.2.2.1)
    ⟨200, "AB:7"⟩ rfl rfl (by decide)

/-- C9: the query URL depends only on the first five characters of the
SHA-1 hex digest of the password: any two passwords whose digests share the
same 5-character prefix produce the identical request URL (only that prefix
of the digest, and nothing of the plaintext, reaches the URL). -/
theorem C9_url_depends_only_on_prefix (sha1 : String → String)
    (p1 p2 : String)
    (h : (sha1 p1).data.take 5 = (sha1 p2).data.take 5) :
    pwned_url sha1 p1 = pwned_url sha1 p2 := by
  unfold pwned_url pyUpper
  congr 2
  simp only [← List.map_take, h]

/-- C9 witness: two distinct digests sharing the prefix `00000` give the
same URL. -/
theorem C9_url_depends_only_on_prefix_witness :
    pwned_url (fun p => if p = "x" then "00000aa" else "00000bb") "x" =
      pwned_url (fun p => if p = "x" then "00000aa" else "00000bb") "y" :=
  C9_url_depends_only_on_prefix
    (fun p => if p = "x" then "00000aa" else "00000bb") "x" "y" (by decide)

end PasswordGen
